import Mathlib

/-!
Verification of the chilsonite distributed SOCKS5 proxy fabric.

This file shallowly embeds the hub (cserver) and agent components that the
tunneling protocol claims talk about: the base64 chunk codec, the SSRF guard
`is_private_ip` together with the Rust standard library IP-address parser it
relies on, the agent selection function `choose_agent`, the hub's pending
request router, the agent's TCP connection table, and the per-request relay
pumps on both sides.  Strings are modelled as lists of characters, machine
integers as `Nat`/`Int` with explicit bounds, and concurrency as explicit
event sequences fed to the per-message handler functions taken from the code.
-/

namespace Chilsonite

/-- Rust `String`/`&str` values are modelled as lists of characters. -/
abbrev Str := List Char

/-! ### Base64 (standard alphabet, with padding)

Embeds the `base64` crate's `general_purpose::STANDARD` engine as used by
`STANDARD.encode` / `STANDARD.decode` in `agent/src/tcp.rs`,
`agent/src/command.rs` and `cserver/src/socks5.rs`: the standard alphabet,
mandatory canonical padding, and rejection of set trailing bits. -/

/-- The 64 characters of the standard base64 alphabet. -/
def b64Chars : List Char :=
  [ 'A', 'B', 'C', 'D', 'E', 'F', 'G', 'H', 'I', 'J', 'K', 'L', 'M',
    'N', 'O', 'P', 'Q', 'R', 'S', 'T', 'U', 'V', 'W', 'X', 'Y', 'Z',
    'a', 'b', 'c', 'd', 'e', 'f', 'g', 'h', 'i', 'j', 'k', 'l', 'm',
    'n', 'o', 'p', 'q', 'r', 's', 't', 'u', 'v', 'w', 'x', 'y', 'z',
    '0', '1', '2', '3', '4', '5', '6', '7', '8', '9', '+', '/' ]

/-- Character encoding a 6-bit value. -/
def b64EncChar (n : Nat) : Char := b64Chars.getD n 'A'

/-- Decode one base64 symbol back to its 6-bit value (`none` for
characters outside the alphabet, including the padding sign). -/
def b64DecChar (c : Char) : Option Nat := b64Chars.indexOf? c

/-- Base64-encode a byte sequence (bytes are `Nat` values below 256),
producing the padded standard-alphabet text, as `STANDARD.encode` does. -/
def b64Encode : List Nat → List Char
  | [] => []
  | [b0] =>
      [b64EncChar (b0 / 4), b64EncChar (b0 % 4 * 16), '=', '=']
  | [b0, b1] =>
      [b64EncChar (b0 / 4), b64EncChar (b0 % 4 * 16 + b1 / 16),
       b64EncChar (b1 % 16 * 4), '=']
  | b0 :: b1 :: b2 :: rest =>
      b64EncChar (b0 / 4) :: b64EncChar (b0 % 4 * 16 + b1 / 16) ::
      b64EncChar (b1 % 16 * 4 + b2 / 64) :: b64EncChar (b2 % 64) ::
      b64Encode rest

/-- Base64-decode padded standard-alphabet text, as `STANDARD.decode` does:
the length must be a multiple of four, padding may appear only at the very
end in its canonical shape, and the unused trailing bits must be zero. -/
def b64Decode : List Char → Option (List Nat)
  | [] => some []
  | c0 :: c1 :: c2 :: c3 :: rest =>
      match b64DecChar c0, b64DecChar c1 with
      | some p0, some p1 =>
          if c2 = '=' then
            if c3 = '=' ∧ rest = [] ∧ p1 % 16 = 0 then
              some [p0 * 4 + p1 / 16]
            else none
          else
            match b64DecChar c2 with
            | some p2 =>
                if c3 = '=' then
                  if rest = [] ∧ p2 % 4 = 0 then
                    some [p0 * 4 + p1 / 16, p1 % 16 * 16 + p2 / 4]
                  else none
                else
                  match b64DecChar c3 with
                  | some p3 =>
                      match b64Decode rest with
                      | some tailBytes =>
                          some ((p0 * 4 + p1 / 16) :: (p1 % 16 * 16 + p2 / 4) ::
                                (p2 % 4 * 64 + p3) :: tailBytes)
                      | none => none
                  | none => none
            | none => none
      | _, _ => none
  | _ => none

theorem b64DecChar_encChar : ∀ n : Nat, n < 64 → b64DecChar (b64EncChar n) = some n := by
  decide

theorem b64EncChar_ne_pad : ∀ n : Nat, n < 64 → b64EncChar n ≠ '=' := by
  decide

/-- Decoding inverts encoding on every byte sequence. -/
theorem b64_roundtrip : ∀ bs : List Nat, (∀ b ∈ bs, b < 256) →
    b64Decode (b64Encode bs) = some bs
  | [], _ => by simp [b64Encode, b64Decode]
  | [b0], h => by
      have hb0 : b0 < 256 := h b0 (by simp)
      have h1 : b0 / 4 < 64 := by omega
      have h2 : b0 % 4 * 16 < 64 := by omega
      simp only [b64Encode, b64Decode, b64DecChar_encChar _ h1, b64DecChar_encChar _ h2]
      have : b0 % 4 * 16 % 16 = 0 := by omega
      simp [this]
      omega
  | [b0, b1], h => by
      have hb0 : b0 < 256 := h b0 (by simp)
      have hb1 : b1 < 256 := h b1 (by simp)
      have h1 : b0 / 4 < 64 := by omega
      have h2 : b0 % 4 * 16 + b1 / 16 < 64 := by omega
      have h3 : b1 % 16 * 4 < 64 := by omega
      simp only [b64Encode, b64Decode, b64DecChar_encChar _ h1, b64DecChar_encChar _ h2,
        b64DecChar_encChar _ h3, b64EncChar_ne_pad _ h3, if_false]
      have hne : ¬ b64EncChar (b1 % 16 * 4) = '=' := b64EncChar_ne_pad _ h3
      simp [hne]
      exact ⟨by omega, by omega⟩
  | b0 :: b1 :: b2 :: rest, h => by
      have hb0 : b0 < 256 := h b0 (by simp)
      have hb1 : b1 < 256 := h b1 (by simp)
      have hb2 : b2 < 256 := h b2 (by simp)
      have hrest : ∀ b ∈ rest, b < 256 := fun b hb => h b (by simp [hb])
      have h1 : b0 / 4 < 64 := by omega
      have h2 : b0 % 4 * 16 + b1 / 16 < 64 := by omega
      have h3 : b1 % 16 * 4 + b2 / 64 < 64 := by omega
      have h4 : b2 % 64 < 64 := by omega
      have ih := b64_roundtrip rest hrest
      match rest with
      | [] =>
          simp only [b64Encode, b64Decode, b64DecChar_encChar _ h1, b64DecChar_encChar _ h2,
            b64DecChar_encChar _ h3, b64DecChar_encChar _ h4,
            b64EncChar_ne_pad _ h3, b64EncChar_ne_pad _ h4]
          have hne3 : ¬ b64EncChar (b1 % 16 * 4 + b2 / 64) = '=' := b64EncChar_ne_pad _ h3
          have hne4 : ¬ b64EncChar (b2 % 64) = '=' := b64EncChar_ne_pad _ h4
          simp [hne3, hne4, b64Decode]
          refine ⟨by omega, by omega, by omega⟩
      | r0 :: rrest =>
          have henc : b64Encode (b0 :: b1 :: b2 :: r0 :: rrest) =
              b64EncChar (b0 / 4) :: b64EncChar (b0 % 4 * 16 + b1 / 16) ::
              b64EncChar (b1 % 16 * 4 + b2 / 64) :: b64EncChar (b2 % 64) ::
              b64Encode (r0 :: rrest) := rfl
          rw [henc]
          have hne3 : ¬ b64EncChar (b1 % 16 * 4 + b2 / 64) = '=' := b64EncChar_ne_pad _ h3
          have hne4 : ¬ b64EncChar (b2 % 64) = '=' := b64EncChar_ne_pad _ h4
          simp only [b64Decode, b64DecChar_encChar _ h1, b64DecChar_encChar _ h2,
            b64DecChar_encChar _ h3, b64DecChar_encChar _ h4]
          simp only [hne3, hne4, if_false, ih]
          simp
          refine ⟨by omega, by omega, by omega⟩

/-! ### IP address parsing and the SSRF guard

The agent's SSRF predicate `is_private_ip` (`agent/src/tcp.rs:68-93`) parses
its argument with `IpAddr::from_str` and then applies the Rust standard
library range predicates.  The parser below embeds `core::net::parser`:
`read_number` (greedy digits, checked overflow, optional zero-prefix ban),
`read_ipv4_addr` (four dot-separated u8 groups of at most three digits, no
leading zeros), and `read_ipv6_addr` (colon-separated 16-bit hex groups, one
optional `::` gap, optional trailing embedded IPv4), with the whole input
required to be consumed. -/

/-- An IPv4 address as four octets (each below 256 when produced by the
parser). -/
structure Ipv4 where
  a : Nat
  b : Nat
  c : Nat
  d : Nat
deriving DecidableEq

/-- An IPv6 address as eight 16-bit segments, as `Ipv6Addr::segments`
exposes it. -/
structure Ipv6 where
  s0 : Nat
  s1 : Nat
  s2 : Nat
  s3 : Nat
  s4 : Nat
  s5 : Nat
  s6 : Nat
  s7 : Nat
deriving DecidableEq

/-- Either kind of parsed address (`std::net::IpAddr`). -/
inductive IpAddr where
  | v4 (ip : Ipv4)
  | v6 (ip : Ipv6)
deriving DecidableEq

/-- Rust `char::to_digit`, restricted to the radices 10 and 16 the IP
parser uses. -/
def toDigit (radix : Nat) (c : Char) : Option Nat :=
  let d : Option Nat :=
    if '0' ≤ c ∧ c ≤ '9' then some (c.toNat - 48)
    else if 'a' ≤ c ∧ c ≤ 'z' then some (c.toNat - 97 + 10)
    else if 'A' ≤ c ∧ c ≤ 'Z' then some (c.toNat - 65 + 10)
    else none
  match d with
  | some v => if v < radix then some v else none
  | none => none

/-- Digit-consuming loop of `Parser::read_number`: accumulates digits,
failing on overflow past `bound` (the checked `u8`/`u16` arithmetic) or on
more than `maxDigits` digits; stops at the first non-digit. -/
def readNumberGo (radix maxDigits bound : Nat) :
    List Char → Nat → Nat → Option (Nat × Nat × List Char)
  | [], acc, count => some (acc, count, [])
  | c :: rest, acc, count =>
      match toDigit radix c with
      | none => some (acc, count, c :: rest)
      | some d =>
          if acc * radix + d ≥ bound then none
          else if count + 1 > maxDigits then none
          else readNumberGo radix maxDigits bound rest (acc * radix + d) (count + 1)

/-- Rust `Parser::read_number`: at least one digit, overflow-checked, and
(for IPv4 octets) rejecting a redundant leading zero. -/
def readNumber (radix maxDigits bound : Nat) (allowZeroPrefix : Bool) (s : List Char) :
    Option (Nat × List Char) :=
  let hasLeadingZero := s.head? = some '0'
  match readNumberGo radix maxDigits bound s 0 0 with
  | none => none
  | some (val, count, rest) =>
      if count = 0 then none
      else if ¬allowZeroPrefix ∧ hasLeadingZero ∧ count > 1 then none
      else some (val, rest)

/-- Rust `Parser::read_given_char`: consume exactly the expected
character. -/
def expectChar (c : Char) (s : List Char) : Option (List Char) :=
  match s with
  | [] => none
  | x :: rest => if x = c then some rest else none

/-- Rust `Parser::read_ipv4_addr`: four octets separated by dots, each an
overflow-checked `u8` of at most three digits without a leading zero. -/
def readIpv4 (s : List Char) : Option (Ipv4 × List Char) := do
  let (a, s) ← readNumber 10 3 256 false s
  let s ← expectChar '.' s
  let (b, s) ← readNumber 10 3 256 false s
  let s ← expectChar '.' s
  let (c, s) ← readNumber 10 3 256 false s
  let s ← expectChar '.' s
  let (d, s) ← readNumber 10 3 256 false s
  pure (⟨a, b, c, d⟩, s)

/-- The `read_groups` loop of `Parser::read_ipv6_addr`: reads up to
`remaining` colon-separated 16-bit hex groups (the first group has no
leading colon when `first` is true), allowing a trailing embedded IPv4
address when at least two group slots remain; returns the groups read, a
flag recording whether the embedded IPv4 form was used, and the rest of the
input. -/
def readGroupsGo : Nat → Bool → List Char → (List Nat × Bool × List Char)
  | 0, _, s => ([], false, s)
  | remaining + 1, first, s =>
      match (if first then some s else expectChar ':' s) with
      | none => ([], false, s)
      | some s1 =>
          match (if remaining ≥ 1 then readIpv4 s1 else none) with
          | some (ip, s2) => ([ip.a * 256 + ip.b, ip.c * 256 + ip.d], true, s2)
          | none =>
              match readNumber 16 4 65536 true s1 with
              | none => ([], false, s)
              | some (g, s2) =>
                  let (gs, usedIpv4, s3) := readGroupsGo remaining false s2
                  (g :: gs, usedIpv4, s3)

/-- Assemble an `Ipv6` from the list of exactly eight segments the parser
builds. -/
def ipv6OfList (l : List Nat) : Ipv6 :=
  ⟨l.getD 0 0, l.getD 1 0, l.getD 2 0, l.getD 3 0,
   l.getD 4 0, l.getD 5 0, l.getD 6 0, l.getD 7 0⟩

/-- Rust `Parser::read_ipv6_addr`: a head group run; if fewer than eight
groups were read, a mandatory `::` gap (not allowed after an embedded IPv4)
followed by a tail group run, with the gap standing for the zero groups in
between. -/
def readIpv6 (s : List Char) : Option (Ipv6 × List Char) :=
  let (head, headIpv4, s1) := readGroupsGo 8 true s
  if head.length = 8 then some (ipv6OfList head, s1)
  else if headIpv4 then none
  else
    match expectChar ':' s1 with
    | none => none
    | some s2 =>
        match expectChar ':' s2 with
        | none => none
        | some s3 =>
            let limit := 8 - (head.length + 1)
            let (tail, _, s4) := readGroupsGo limit true s3
            some (ipv6OfList (head ++ List.replicate (8 - head.length - tail.length) 0 ++ tail), s4)

/-- Rust `IpAddr::from_str`: try IPv4, then IPv6, and require the whole
input to be consumed. -/
def parseIpAddr (s : Str) : Option IpAddr :=
  let r : Option (IpAddr × List Char) :=
    match readIpv4 s with
    | some (ip, rest) => some (IpAddr.v4 ip, rest)
    | none =>
        match readIpv6 s with
        | some (ip, rest) => some (IpAddr.v6 ip, rest)
        | none => none
  match r with
  | some (ip, []) => some ip
  | _ => none

/-- Rust `Ipv4Addr::is_private` (RFC 1918). -/
def ipv4_is_private (ip : Ipv4) : Bool :=
  decide (ip.a = 10) || decide (ip.a = 172 ∧ 16 ≤ ip.b ∧ ip.b ≤ 31) ||
  decide (ip.a = 192 ∧ ip.b = 168)

/-- Rust `Ipv4Addr::is_loopback` (127.0.0.0/8). -/
def ipv4_is_loopback (ip : Ipv4) : Bool := decide (ip.a = 127)

/-- Rust `Ipv4Addr::is_link_local` (169.254.0.0/16). -/
def ipv4_is_link_local (ip : Ipv4) : Bool := decide (ip.a = 169 ∧ ip.b = 254)

/-- Rust `Ipv4Addr::is_broadcast` (255.255.255.255). -/
def ipv4_is_broadcast (ip : Ipv4) : Bool :=
  decide (ip.a = 255 ∧ ip.b = 255 ∧ ip.c = 255 ∧ ip.d = 255)

/-- Rust `Ipv4Addr::is_documentation` (192.0.2.0/24, 198.51.100.0/24,
203.0.113.0/24). -/
def ipv4_is_documentation (ip : Ipv4) : Bool :=
  decide (ip.a = 192 ∧ ip.b = 0 ∧ ip.c = 2) ||
  decide (ip.a = 198 ∧ ip.b = 51 ∧ ip.c = 100) ||
  decide (ip.a = 203 ∧ ip.b = 0 ∧ ip.c = 113)

/-- Rust `Ipv4Addr::is_unspecified` (0.0.0.0). -/
def ipv4_is_unspecified (ip : Ipv4) : Bool :=
  decide (ip.a = 0 ∧ ip.b = 0 ∧ ip.c = 0 ∧ ip.d = 0)

/-- Rust `Ipv6Addr::is_loopback` (`::1`). -/
def ipv6_is_loopback (ip : Ipv6) : Bool :=
  decide (ip = ⟨0, 0, 0, 0, 0, 0, 0, 1⟩)

/-- Rust `Ipv6Addr::is_unspecified` (`::`). -/
def ipv6_is_unspecified (ip : Ipv6) : Bool :=
  decide (ip = ⟨0, 0, 0, 0, 0, 0, 0, 0⟩)

/-- The agent's SSRF guard `is_private_ip` (`agent/src/tcp.rs:68-93`):
parse the string; for IPv4 block private, loopback, link-local, broadcast,
documentation and unspecified addresses; for IPv6 block loopback,
unspecified and unique-local (`fc00::/7`, first segment masked with
`0xfe00` equal to `0xfc00`); treat unparseable text as private. -/
def is_private_ip (s : Str) : Bool :=
  match parseIpAddr s with
  | some (IpAddr.v4 ip) =>
      ipv4_is_private ip || ipv4_is_loopback ip || ipv4_is_link_local ip ||
      ipv4_is_broadcast ip || ipv4_is_documentation ip || ipv4_is_unspecified ip
  | some (IpAddr.v6 ip) =>
      ipv6_is_loopback ip || ipv6_is_unspecified ip ||
      (Nat.land ip.s0 0xfe00 == 0xfc00)
  | none => true

/-- The address ranges that claim C1 requires the guard to block, IPv4
side: RFC 1918, 127.0.0.0/8, 169.254.0.0/16, 0.0.0.0, 255.255.255.255 and
the documentation ranges. -/
def claimBlockedV4 (ip : Ipv4) : Prop :=
  ip.a = 10 ∨ (ip.a = 172 ∧ 16 ≤ ip.b ∧ ip.b ≤ 31) ∨ (ip.a = 192 ∧ ip.b = 168) ∨
  ip.a = 127 ∨ (ip.a = 169 ∧ ip.b = 254) ∨
  ip = ⟨0, 0, 0, 0⟩ ∨ ip = ⟨255, 255, 255, 255⟩ ∨
  (ip.a = 192 ∧ ip.b = 0 ∧ ip.c = 2) ∨ (ip.a = 198 ∧ ip.b = 51 ∧ ip.c = 100) ∨
  (ip.a = 203 ∧ ip.b = 0 ∧ ip.c = 113)

/-- The address ranges that claim C1 requires the guard to block, IPv6
side: `::1`, `::` and `fc00::/7`. -/
def claimBlockedV6 (ip : Ipv6) : Prop :=
  ip = ⟨0, 0, 0, 0, 0, 0, 0, 1⟩ ∨ ip = ⟨0, 0, 0, 0, 0, 0, 0, 0⟩ ∨
  (0xfc00 ≤ ip.s0 ∧ ip.s0 ≤ 0xfdff)

set_option maxRecDepth 4096 in
theorem land_fe00_of_ula : ∀ k : Nat, k < 512 → Nat.land (0xfc00 + k) 0xfe00 = 0xfc00 := by
  decide

set_option maxHeartbeats 2000000 in
/-- C1: the SSRF predicate `is_private_ip` classifies as blocked every
parsed IPv4 address in the RFC 1918 ranges, 127.0.0.0/8, 169.254.0.0/16,
0.0.0.0, 255.255.255.255 and the IPv4 documentation ranges; every parsed
IPv6 address equal to `::1` or `::` or inside `fc00::/7`; and every string
that does not parse as an IP address.  It classifies 8.8.8.8, 1.1.1.1,
2001:db8::1 and 2606:4700:4700::1111 as allowed. -/
theorem c1_ssrf_predicate :
    (∀ s ip, parseIpAddr s = some (IpAddr.v4 ip) → claimBlockedV4 ip →
      is_private_ip s = true) ∧
    (∀ s ip, parseIpAddr s = some (IpAddr.v6 ip) → claimBlockedV6 ip →
      is_private_ip s = true) ∧
    (∀ s, parseIpAddr s = none → is_private_ip s = true) ∧
    is_private_ip ['8', '.', '8', '.', '8', '.', '8'] = false ∧
    is_private_ip ['1', '.', '1', '.', '1', '.', '1'] = false ∧
    is_private_ip ['2', '0', '0', '1', ':', 'd', 'b', '8', ':', ':', '1'] = false ∧
    is_private_ip ['2', '6', '0', '6', ':', '4', '7', '0', '0', ':', '4', '7',
                   '0', '0', ':', ':', '1', '1', '1', '1'] = false := by
  refine ⟨?_, ?_, ?_, rfl, rfl, rfl, rfl⟩
  · intro s ip hp hb
    obtain ⟨a, b, c, d⟩ := ip
    unfold is_private_ip
    rw [hp]
    show (ipv4_is_private ⟨a, b, c, d⟩ || ipv4_is_loopback ⟨a, b, c, d⟩ ||
      ipv4_is_link_local ⟨a, b, c, d⟩ || ipv4_is_broadcast ⟨a, b, c, d⟩ ||
      ipv4_is_documentation ⟨a, b, c, d⟩ || ipv4_is_unspecified ⟨a, b, c, d⟩) = true
    simp only [Bool.or_eq_true, ipv4_is_private,
      ipv4_is_loopback, ipv4_is_link_local, ipv4_is_broadcast,
      ipv4_is_documentation, ipv4_is_unspecified, decide_eq_true_eq]
    simp only [claimBlockedV4, Ipv4.mk.injEq] at hb
    rcases hb with h | h | h | h | h | h | h | h | h | h
    · exact Or.inl (Or.inl (Or.inl (Or.inl (Or.inl (Or.inl (Or.inl h))))))
    · exact Or.inl (Or.inl (Or.inl (Or.inl (Or.inl (Or.inl (Or.inr h))))))
    · exact Or.inl (Or.inl (Or.inl (Or.inl (Or.inl (Or.inr h)))))
    · exact Or.inl (Or.inl (Or.inl (Or.inl (Or.inr h))))
    · exact Or.inl (Or.inl (Or.inl (Or.inr h)))
    · exact Or.inr h
    · exact Or.inl (Or.inl (Or.inr h))
    · exact Or.inl (Or.inr (Or.inl (Or.inl h)))
    · exact Or.inl (Or.inr (Or.inl (Or.inr h)))
    · exact Or.inl (Or.inr (Or.inr h))
  · intro s ip hp hb
    unfold is_private_ip
    rw [hp]
    show (ipv6_is_loopback ip || ipv6_is_unspecified ip ||
      (Nat.land ip.s0 0xfe00 == 0xfc00)) = true
    simp only [Bool.or_eq_true]
    rcases hb with h | h | ⟨h1, h2⟩
    · subst h
      exact Or.inl (Or.inl (by rfl))
    · subst h
      exact Or.inl (Or.inr (by rfl))
    · right
      have hk : ip.s0 = 0xfc00 + (ip.s0 - 0xfc00) := by omega
      have hl := land_fe00_of_ula (ip.s0 - 0xfc00) (by omega)
      rw [beq_iff_eq, hk, hl]
  · intro s h
    unfold is_private_ip
    rw [h]

/-- Witness for C1: the private address 10.0.0.1 is blocked via the first
conjunct of the theorem. -/
theorem c1_ssrf_predicate_witness :
    is_private_ip ['1', '0', '.', '0', '.', '0', '.', '1'] = true :=
  c1_ssrf_predicate.1 ['1', '0', '.', '0', '.', '0', '.', '1'] ⟨10, 0, 0, 1⟩
    rfl (Or.inl rfl)

/-! ### Control protocol messages

The `Payload` enum of `common/src/types/payload.rs`, restricted to the
variants the tunneling and command paths exchange (the `init-*` handshake
variants carry only metadata strings and are not needed by any claim).
Base64 `data` fields are carried as character lists. -/

/-- Control-protocol message payloads (`common/src/types/payload.rs`). -/
inductive PayloadM where
  | ConnectRequest (request_id : Str) (target_addr : Str) (target_port : Nat)
      (agent_id : Option Str) (address_type : Nat)
  | ConnectResponse (request_id : Str) (success : Bool)
  | DataRequestChunk (request_id : Str) (chunk_id : Nat) (data : Str)
  | DataResponseChunk (request_id : Str) (chunk_id : Nat) (data : Str)
  | DataResponseTransferComplete (request_id : Str) (success : Bool)
      (error_message : Option Str)
  | DataRequestTransferComplete (request_id : Str) (success : Bool)
      (error_message : Option Str)
  | ClientDisconnect (request_id : Str)
  | CommandRequest (request_id : Str) (command : Str)
  | CommandResponseChunk (request_id : Str) (chunk_id : Nat) (stream_type : Nat)
      (data : Str)
  | CommandResponseTransferComplete (request_id : Str) (success : Bool)
      (exit_code : Option Int) (error_message : Option Str)
deriving DecidableEq

/-! ### Relay pumps

Each pump is modelled as a function from the sequence of read results its
loop observes to the list of messages it emits.  A `ReadEv` is one result
of `read(&mut buf)` on a 1024-byte buffer: `chunk bs` for `Ok(n)` with
`n > 0` (so `bs` is nonempty and at most 1024 bytes), `eof` for `Ok(0)`,
and `err` for `Err(_)`. -/

/-- One read result observed by a relay loop. -/
inductive ReadEv where
  | chunk (bs : List Nat)
  | eof
  | err
deriving DecidableEq

/-- The hub's client-to-agent pump (the `send_task` of
`handle_socks5_data_transfer`, `cserver/src/socks5.rs:247-298`): each read
chunk is base64-encoded and sent as a `DataRequestChunk` with the running
`chunk_id` (starting at 1); client EOF sends `ClientDisconnect` and stops;
a read error stops without a further message. -/
def socks5_send_task (rid : Str) : List ReadEv → Nat → List PayloadM
  | [], _ => []
  | ReadEv.eof :: _, _ => [PayloadM.ClientDisconnect rid]
  | ReadEv.err :: _, _ => []
  | ReadEv.chunk bs :: rest, chunkId =>
      PayloadM.DataRequestChunk rid chunkId (b64Encode bs) ::
      socks5_send_task rid rest (chunkId + 1)

/-- The agent's upstream read pump `tcp_read_handler`
(`agent/src/tcp.rs:18-64`): each read chunk is base64-encoded and sent as a
`DataResponseChunk` with the running `chunk_id` (starting at 1); upstream
EOF sends a successful `DataResponseTransferComplete` and stops; a read
error sends a failed one and stops. -/
def tcp_read_handler (rid : Str) : List ReadEv → Nat → List PayloadM
  | [], _ => []
  | ReadEv.eof :: _, _ => [PayloadM.DataResponseTransferComplete rid true none]
  | ReadEv.err :: _, _ =>
      [PayloadM.DataResponseTransferComplete rid false (some ['e', 'r', 'r'])]
  | ReadEv.chunk bs :: rest, chunkId =>
      PayloadM.DataResponseChunk rid chunkId (b64Encode bs) ::
      tcp_read_handler rid rest (chunkId + 1)

/-- Agent-side network state: the TCP connection table and the upstream
sockets' received bytes. -/
structure AgentNet where
  table : List Str
  sockets : List (Str × List Nat)
deriving DecidableEq

/-- Append bytes to the socket owned by `rid`. -/
def writeBytes (sockets : List (Str × List Nat)) (rid : Str) (bytes : List Nat) :
    List (Str × List Nat) :=
  sockets.map (fun p => if p.1 = rid then (p.1, p.2 ++ bytes) else p)

/-- The agent's `handle_data_request` (`agent/src/tcp.rs:284-333`): base64
decode first (a decode failure only skips the chunk), then write the bytes
to the upstream write half if the table still holds the identifier; a
missing identifier is only a warning. -/
def handle_data_request (st : AgentNet) (rid : Str) (data : Str) : AgentNet :=
  match b64Decode data with
  | none => st
  | some decoded =>
      if st.table.contains rid then
        { st with sockets := writeBytes st.sockets rid decoded }
      else st

/-- The agent control loop dispatch (`agent/src/ws.rs:36-179`) restricted
to the messages that touch the TCP connection table synchronously:
`DataRequestChunk` writes through `handle_data_request`;
`DataRequestTransferComplete` and `ClientDisconnect` remove the entry and
shut the write half down. -/
def agent_event_step (st : AgentNet) (m : PayloadM) : AgentNet :=
  match m with
  | PayloadM.DataRequestChunk rid _ data => handle_data_request st rid data
  | PayloadM.DataRequestTransferComplete rid _ _ =>
      { st with table := st.table.filter (fun r => r ≠ rid) }
  | PayloadM.ClientDisconnect rid =>
      { st with table := st.table.filter (fun r => r ≠ rid) }
  | _ => st

/-- Run the agent control loop over a message sequence. -/
def agent_run (st : AgentNet) (msgs : List PayloadM) : AgentNet :=
  msgs.foldl agent_event_step st

/-- The hub's agent-to-client pump (the `write_task` of
`handle_socks5_data_transfer`, `cserver/src/socks5.rs:299-362`): a
`DataResponseChunk` is base64-decoded and written to the client (a decode
failure is logged and the chunk skipped); `DataResponseTransferComplete`
ends the task; unexpected payloads are logged and discarded. -/
def socks5_write_task (written : List Nat) : List PayloadM → List Nat
  | [] => written
  | PayloadM.DataResponseChunk _ _ data :: rest =>
      (match b64Decode data with
       | some decoded => socks5_write_task (written ++ decoded) rest
       | none => socks5_write_task written rest)
  | PayloadM.DataResponseTransferComplete _ _ _ :: _ => written
  | _ :: rest => socks5_write_task written rest

theorem agent_step_chunk (rid : Str) (k : Nat) (data : Str) (acc decoded : List Nat)
    (hdec : b64Decode data = some decoded) :
    agent_event_step ⟨[rid], [(rid, acc)]⟩ (PayloadM.DataRequestChunk rid k data)
      = ⟨[rid], [(rid, acc ++ decoded)]⟩ := by
  simp [agent_event_step, handle_data_request, hdec, writeBytes]

theorem agent_run_delivers (rid : Str) : ∀ (chunks : List (List Nat)) (k : Nat) (acc : List Nat),
    (∀ c ∈ chunks, ∀ b ∈ c, b < 256) →
    agent_run ⟨[rid], [(rid, acc)]⟩
      (socks5_send_task rid (chunks.map ReadEv.chunk ++ [ReadEv.eof]) k)
      = ⟨[], [(rid, acc ++ chunks.flatten)]⟩
  | [], k, acc, _ => by
      simp [socks5_send_task, agent_run, agent_event_step]
  | c :: cs, k, acc, h => by
      have hc : ∀ b ∈ c, b < 256 := h c (by simp)
      have hcs : ∀ c' ∈ cs, ∀ b ∈ c', b < 256 := fun c' hm b hb => h c' (by simp [hm]) b hb
      have ih := agent_run_delivers rid cs (k + 1) (acc ++ c) hcs
      simp only [List.map_cons, List.cons_append, socks5_send_task, agent_run, List.foldl_cons,
        List.append_eq]
      rw [agent_step_chunk rid k _ acc c (b64_roundtrip c hc)]
      simp only [agent_run] at ih
      rw [ih]
      simp

theorem write_task_delivers (rid : Str) : ∀ (chunks : List (List Nat)) (k : Nat) (written : List Nat),
    (∀ c ∈ chunks, ∀ b ∈ c, b < 256) →
    socks5_write_task written
      (tcp_read_handler rid (chunks.map ReadEv.chunk ++ [ReadEv.eof]) k)
      = written ++ chunks.flatten
  | [], k, written, _ => by
      simp [tcp_read_handler, socks5_write_task]
  | c :: cs, k, written, h => by
      have hc : ∀ b ∈ c, b < 256 := h c (by simp)
      have hcs : ∀ c' ∈ cs, ∀ b ∈ c', b < 256 := fun c' hm b hb => h c' (by simp [hm]) b hb
      have ih := write_task_delivers rid cs (k + 1) (written ++ c) hcs
      simp only [List.map_cons, List.cons_append, tcp_read_handler, socks5_write_task,
        b64_roundtrip c hc, List.append_eq]
      rw [ih]
      simp

/-- C2: over a relay session whose client sends the given chunk sequence
(each read at most 1024 bytes), the bytes written to the agent's upstream
socket are exactly the concatenation of the client's chunks; symmetrically,
the bytes the hub writes back to its client are exactly the concatenation
of the chunks the agent read from the upstream socket. -/
theorem c2_chunk_roundtrip (rid : Str) (chunks : List (List Nat))
    (h : ∀ c ∈ chunks, c.length ≤ 1024 ∧ c ≠ [] ∧ ∀ b ∈ c, b < 256) :
    (agent_run ⟨[rid], [(rid, [])]⟩
        (socks5_send_task rid (chunks.map ReadEv.chunk ++ [ReadEv.eof]) 1)).sockets
      = [(rid, chunks.flatten)] ∧
    socks5_write_task []
        (tcp_read_handler rid (chunks.map ReadEv.chunk ++ [ReadEv.eof]) 1)
      = chunks.flatten := by
  have hb : ∀ c ∈ chunks, ∀ b ∈ c, b < 256 := fun c hc => (h c hc).2.2
  constructor
  · rw [agent_run_delivers rid chunks 1 [] hb]
    simp
  · rw [write_task_delivers rid chunks 1 [] hb]
    simp

/-- Witness for C2 at the concrete chunk sequence `[[104, 105], [33]]`. -/
theorem c2_chunk_roundtrip_witness :
    (agent_run ⟨[['r']], [(['r'], [])]⟩
        (socks5_send_task ['r']
          ([[104, 105], [33]].map ReadEv.chunk ++ [ReadEv.eof]) 1)).sockets
      = [(['r'], [104, 105, 33])] ∧
    socks5_write_task []
        (tcp_read_handler ['r']
          ([[104, 105], [33]].map ReadEv.chunk ++ [ReadEv.eof]) 1)
      = [104, 105, 33] :=
  c2_chunk_roundtrip ['r'] [[104, 105], [33]] (by decide)

/-- The two shapes of a pending slot (`PendingSender` in the hub). -/
inductive PendingSender where
  | oneshot
  | mpsc
deriving DecidableEq

/-- The hub's pending-request table. -/
abbrev PendingMap := List (Str × PendingSender)

/-- Look a request identifier up in the table. -/
def pmLookup (m : PendingMap) (rid : Str) : Option PendingSender :=
  (m.find? (fun p => p.1 = rid)).map (fun p => p.2)

/-- `HashMap::remove`: drop the slot with the given key. -/
def pmRemove (m : PendingMap) (rid : Str) : PendingMap :=
  m.filter (fun p => p.1 ≠ rid)

/-- `HashMap::insert`: replace any existing slot with the given key. -/
def pmInsert (m : PendingMap) (rid : Str) (v : PendingSender) : PendingMap :=
  (rid, v) :: pmRemove m rid

theorem pmLookup_pmRemove_self (m : PendingMap) (rid : Str) :
    pmLookup (pmRemove m rid) rid = none := by
  induction m with
  | nil => rfl
  | cons p rest ih =>
      by_cases h : p.1 = rid
      · simp only [pmRemove, pmLookup, List.filter_cons] at ih ⊢
        simp [h, ih]
      · simp only [pmRemove, pmLookup, List.filter_cons] at ih ⊢
        simp [h, List.find?, ih]

theorem pmLookup_pmInsert_self (m : PendingMap) (rid : Str) (v : PendingSender) :
    pmLookup (pmInsert m rid v) rid = some v := by
  simp [pmInsert, pmLookup, List.find?]

/-- The hub's `handle_connect_response` (`cserver/src/websocket.rs:73-95`):
remove the slot for the response's request identifier; if it was a one-shot
sender, fire it (the message is delivered); if it was an mpsc sender, log
an error without delivering; if no slot exists, do nothing.  Returns the
new table and whether the response was delivered to a waiting one-shot. -/
def handle_connect_response (pending : PendingMap) (rid : Str) : PendingMap × Bool :=
  match pmLookup pending rid with
  | some PendingSender.oneshot => (pmRemove pending rid, true)
  | some PendingSender.mpsc => (pmRemove pending rid, false)
  | none => (pending, false)

/-- The hub's `handle_data_response` (`cserver/src/websocket.rs:98-126`),
handling both `DataResponseChunk` and `DataResponseTransferComplete`: look
the slot up with `get_mut` (the entry stays in the table); deliver only to
an mpsc sender; log and drop on a one-shot slot or a missing slot.
Returns the unchanged-or-same table and whether the message was
delivered. -/
def handle_data_response (pending : PendingMap) (rid : Str) : PendingMap × Bool :=
  match pmLookup pending rid with
  | some PendingSender.mpsc => (pending, true)
  | some PendingSender.oneshot => (pending, false)
  | none => (pending, false)

/-- Outcome of the CONNECT-request phase on the hub: the WebSocket send of
the `ConnectRequest` itself fails (`send_message(...).await?`), or the
agent's response is delivered through the router within the timeout, or
the `timeout` fires. -/
inductive WaitOutcome where
  | sendFailed
  | response (success : Bool)
  | timeout
deriving DecidableEq

/-- The hub's `send_connect_request_and_wait_for_response`
(`cserver/src/socks5.rs:170-223`): insert a one-shot slot, send the
`ConnectRequest`, and await the ack with `timeout(connect_timeout_seconds)`.
A failed send propagates its error with `?` at `cserver/src/socks5.rs:200`,
returning without removing the just-inserted slot.  A delivered response
(removed from the table by `handle_connect_response` on the WebSocket
reader) is returned; on timeout the slot is removed and an error
returned. -/
def send_connect_request_and_wait (pending : PendingMap) (rid : Str)
    (o : WaitOutcome) : PendingMap × Except Str PayloadM :=
  let p1 := pmInsert pending rid PendingSender.oneshot
  match o with
  | WaitOutcome.sendFailed => (p1, Except.error ['s', 'e', 'n', 'd'])
  | WaitOutcome.response s =>
      let r := handle_connect_response p1 rid
      if r.2 then (r.1, Except.ok (PayloadM.ConnectResponse rid s))
      else (r.1, Except.error ['d', 'r', 'o', 'p'])
  | WaitOutcome.timeout => (pmRemove p1 rid, Except.error ['t', 'i', 'm', 'e'])

/-- SOCKS5 general-failure reply bytes (`cserver/src/socks5.rs:22`). -/
def SOCKS5_GENERAL_FAILURE : List Nat := [5, 1, 0, 1, 0, 0, 0, 0, 0, 0]

/-- SOCKS5 success reply bytes (`cserver/src/socks5.rs:23`). -/
def SOCKS5_CONNECT_SUCCESS : List Nat := [5, 0, 0, 1, 0, 0, 0, 0, 0, 0]

/-- The reply `handle_socks5_connection` writes to the client after the
CONNECT wait (`cserver/src/socks5.rs:453-511`): any error (including the
timeout) and any unsuccessful or non-`ConnectResponse` payload produce the
general-failure reply; a successful `ConnectResponse` produces the success
reply. -/
def connectPhaseReply (res : Except Str PayloadM) : List Nat :=
  match res with
  | Except.error _ => SOCKS5_GENERAL_FAILURE
  | Except.ok (PayloadM.ConnectResponse _ true) => SOCKS5_CONNECT_SUCCESS
  | Except.ok (PayloadM.ConnectResponse _ false) => SOCKS5_GENERAL_FAILURE
  | Except.ok _ => SOCKS5_GENERAL_FAILURE

/-- Process a sequence of data-response messages for the given request
identifiers, counting deliveries (`handle_data_response` per message). -/
def run_data_responses (pending : PendingMap) (rids : List Str) : PendingMap × Nat :=
  rids.foldl
    (fun acc r =>
      let step := handle_data_response acc.1 r
      (step.1, acc.2 + (if step.2 then 1 else 0)))
    (pending, 0)

theorem run_data_responses_absent (rid : Str) : ∀ (n : Nat) (pending : PendingMap),
    pmLookup pending rid = none →
    run_data_responses pending (List.replicate n rid) = (pending, 0)
  | 0, pending, _ => by simp [run_data_responses]
  | n + 1, pending, h => by
      have ih := run_data_responses_absent rid n pending h
      simp only [List.replicate_succ, run_data_responses, List.foldl_cons,
        handle_data_response, h] at ih ⊢
      exact ih

/-- C7: when no `ConnectResponse` arrives within the configured timeout,
the hub removes the request's pending slot and replies general failure to
the client; a `ConnectResponse` for the same request identifier arriving
after the timeout finds no slot and is dropped without changing the
pending table or delivering anything. -/
theorem c7_timeout_cleanup (pending : PendingMap) (rid : Str) :
    pmLookup (send_connect_request_and_wait pending rid WaitOutcome.timeout).1 rid = none ∧
    connectPhaseReply (send_connect_request_and_wait pending rid WaitOutcome.timeout).2
      = SOCKS5_GENERAL_FAILURE ∧
    handle_connect_response (send_connect_request_and_wait pending rid WaitOutcome.timeout).1 rid
      = ((send_connect_request_and_wait pending rid WaitOutcome.timeout).1, false) := by
  have hnone : pmLookup (pmRemove (pmInsert pending rid PendingSender.oneshot) rid) rid = none :=
    pmLookup_pmRemove_self _ rid
  refine ⟨hnone, rfl, ?_⟩
  simp [send_connect_request_and_wait, handle_connect_response, hnone]

/-- C10: a `ConnectResponse` arriving while the request's pending slot
holds the relay-phase mpsc sender removes the slot without delivering the
message, and every subsequent data-response message for that request finds
no slot, is dropped, and leaves the table unchanged. -/
theorem c10_stale_slot (pending : PendingMap) (rid : Str) (n : Nat)
    (h : pmLookup pending rid = some PendingSender.mpsc) :
    handle_connect_response pending rid = (pmRemove pending rid, false) ∧
    pmLookup (pmRemove pending rid) rid = none ∧
    run_data_responses (pmRemove pending rid) (List.replicate n rid)
      = (pmRemove pending rid, 0) := by
  refine ⟨?_, pmLookup_pmRemove_self pending rid, ?_⟩
  · simp [handle_connect_response, h]
  · exact run_data_responses_absent rid n (pmRemove pending rid)
      (pmLookup_pmRemove_self pending rid)

/-- Witness for C10 at a concrete one-entry table holding an mpsc slot. -/
theorem c10_stale_slot_witness :
    handle_connect_response [(['r'], PendingSender.mpsc)] ['r'] = ([], false) ∧
    run_data_responses [] (List.replicate 2 ['r']) = ([], 0) := by
  have h := c10_stale_slot [(['r'], PendingSender.mpsc)] ['r'] 2 (by decide)
  refine ⟨h.1.trans (by decide), ?_⟩
  have h3 := h.2.2
  simpa using h3

/-! ### Agent selection

`choose_agent` (`cserver/src/socks5.rs:26-64`) inspects the SOCKS5
username: an `agent_`-prefixed name is an exact registry lookup; the
literal `all` or an absent username picks uniformly at random over all
registered agents; a `country_`-prefixed name chunks the rest into
two-byte codes and picks uniformly among the agents whose `country_code`
matches one of them; anything else selects nothing.  The registry snapshot
is a list (the `DashMap` iteration order); `rng.random_range(0..len)` is
modelled by the oracle `draw`, reduced modulo the candidate count. -/

/-- Agent metadata as registered by the init handshake
(`cserver/src/agent.rs`). -/
structure AgentMeta where
  ip : Str
  remote_host : Str
  country_code : Str
  city : Str
  region : Str
  asn : Str
  asn_org : Str
  os_type : Str
  os_version : Str
  hostname : Str
  kernel_version : Str
  username : Str
deriving DecidableEq

/-- A snapshot of the hub's agent registry. -/
abbrev AgentMap := List (Str × AgentMeta)

/-- The literal `agent_` identifier prefix. -/
def agent_tag : Str := ['a', 'g', 'e', 'n', 't', '_']

/-- The literal `country_` selector prefix. -/
def country_tag : Str := ['c', 'o', 'u', 'n', 't', 'r', 'y', '_']

/-- The literal `all` selector. -/
def all_tag : Str := ['a', 'l', 'l']

/-- Rust `slice::chunks(2)` over the selector bytes, each chunk decoded
back to text (two-character chunks, with a trailing singleton when the
length is odd). -/
def chunk2 : Str → List Str
  | [] => []
  | [c] => [[c]]
  | c1 :: c2 :: rest => [c1, c2] :: chunk2 rest

/-- Uniform choice over the whole registry (the `Some("all") | None` arm
of `choose_agent`). -/
def choose_agent_all (agents : AgentMap) (draw : Nat) : Option (Str × AgentMeta) :=
  if agents.isEmpty then none else agents[draw % agents.length]?

/-- `choose_agent` (`cserver/src/socks5.rs:26-64`). -/
def choose_agent (agents : AgentMap) (username : Option Str) (draw : Nat) :
    Option (Str × AgentMeta) :=
  match username with
  | some u =>
      if agent_tag.isPrefixOf u then agents.find? (fun p => p.1 = u)
      else if u = all_tag then choose_agent_all agents draw
      else if country_tag.isPrefixOf u then
        let codes := chunk2 (u.drop 8)
        let filtered := agents.filter (fun p => codes.contains p.2.country_code)
        if filtered.isEmpty then none
        else filtered[draw % filtered.length]?
      else none
  | none => choose_agent_all agents draw

/-- The `country_` selector built from a list of country codes. -/
def country_sel (codes : List Str) : Str := country_tag ++ codes.flatten

theorem chunk2_flatten : ∀ codes : List Str, (∀ c ∈ codes, c.length = 2) →
    chunk2 codes.flatten = codes
  | [], _ => rfl
  | c :: cs, h => by
      have hc : c.length = 2 := h c (by simp)
      have ih := chunk2_flatten cs (fun c' hm => h c' (by simp [hm]))
      cases c with
      | nil => simp at hc
      | cons x t =>
          cases t with
          | nil => simp at hc
          | cons y t2 =>
              cases t2 with
              | nil => simp [chunk2, ih]
              | cons z t3 => simp at hc

/-- Concrete registry used by the selector witnesses: one Japanese and one
American agent. -/
def exAgents : AgentMap :=
  [ (['a', 'g', 'e', 'n', 't', '_', '1'],
     ⟨[], [], ['J', 'P'], [], [], [], [], [], [], [], [], []⟩),
    (['a', 'g', 'e', 'n', 't', '_', '2'],
     ⟨[], [], ['U', 'S'], [], [], [], [], [], [], [], [], []⟩) ]

/-- Counterexample for C5: with a registered agent present, the
empty-string username arrives as `Some("")`, matches no arm of
`choose_agent`, and is rejected instead of drawing over all agents. -/
theorem c5_selector_counterexample :
    choose_agent exAgents (some []) 0 = none ∧ exAgents ≠ [] := by
  decide

/-- C5 (amended): the literal `all` username and an absent username both
draw uniformly over the whole registry and never reject while any agent is
registered; the empty-string username, by contrast, is rejected (see the
counterexample). -/
theorem c5_selector_amended (agents : AgentMap) (draw : Nat) :
    choose_agent agents (some all_tag) draw
      = (if agents.isEmpty then none else agents[draw % agents.length]?) ∧
    choose_agent agents none draw
      = (if agents.isEmpty then none else agents[draw % agents.length]?) ∧
    (agents ≠ [] → ∃ a, choose_agent agents (some all_tag) draw = some a ∧ a ∈ agents) := by
  have hall : choose_agent agents (some all_tag) draw = choose_agent_all agents draw := by
    simp [choose_agent, all_tag, agent_tag, List.isPrefixOf]
  refine ⟨by rw [hall]; rfl, rfl, ?_⟩
  intro hne
  have hlen : 0 < agents.length := List.length_pos.mpr hne
  have hlt : draw % agents.length < agents.length := Nat.mod_lt _ hlen
  refine ⟨agents[draw % agents.length], ?_, List.getElem_mem hlt⟩
  rw [hall]
  simp [choose_agent_all, List.isEmpty_iff, hne, List.getElem?_eq_getElem hlt]

/-- Witness for C5 (amended) at the concrete two-agent registry. -/
theorem c5_selector_witness :
    ∃ a, choose_agent exAgents (some all_tag) 0 = some a ∧ a ∈ exAgents :=
  (c5_selector_amended exAgents 0).2.2 (by decide)

/-- C9: a `country_` selector formed from two-letter codes filters the
registry to the agents whose `country_code` is one of those codes, rejects
when none matches, and otherwise draws uniformly among the matching
agents; any selected agent's `country_code` is one of the codes. -/
theorem c9_country_selector (agents : AgentMap) (codes : List Str) (draw : Nat)
    (h : ∀ c ∈ codes, c.length = 2) :
    choose_agent agents (some (country_sel codes)) draw
      = (if (agents.filter (fun p => codes.contains p.2.country_code)).isEmpty then none
         else (agents.filter (fun p => codes.contains p.2.country_code))[draw %
           (agents.filter (fun p => codes.contains p.2.country_code)).length]?) ∧
    (∀ a, choose_agent agents (some (country_sel codes)) draw = some a →
      a.2.country_code ∈ codes) := by
  have hdrop : (country_sel codes).drop 8 = codes.flatten := by
    have : (8 : Nat) = country_tag.length := rfl
    rw [country_sel, this, List.drop_left]
  have hc1 : agent_tag.isPrefixOf (country_sel codes) = false := rfl
  have hc3 : country_tag.isPrefixOf (country_sel codes) = true := by
    simp [country_sel, country_tag, List.isPrefixOf, List.cons_append]
  have hc2 : ¬ country_sel codes = all_tag := by
    simp [country_sel, country_tag, all_tag]
  have hmain : choose_agent agents (some (country_sel codes)) draw
      = (if (agents.filter (fun p => codes.contains p.2.country_code)).isEmpty then none
         else (agents.filter (fun p => codes.contains p.2.country_code))[draw %
           (agents.filter (fun p => codes.contains p.2.country_code)).length]?) := by
    simp only [choose_agent, hc1, hc2, hc3, Bool.false_eq_true, if_false,
      if_true, ite_false, ite_true]
    simp only [hdrop, chunk2_flatten codes h]
  refine ⟨hmain, ?_⟩
  intro a ha
  rw [hmain] at ha
  by_cases hemp : (agents.filter (fun p => codes.contains p.2.country_code)).isEmpty
  · rw [if_pos hemp] at ha
    cases ha
  · rw [if_neg hemp] at ha
    have hmem : a ∈ agents.filter (fun p => codes.contains p.2.country_code) :=
      List.getElem?_mem ha
    have hpred := List.of_mem_filter hmem
    simpa using hpred

/-- Witness for C9: the selector `country_JP` on the two-agent registry
picks the Japanese agent. -/
theorem c9_country_selector_witness :
    choose_agent exAgents (some (country_sel [['J', 'P']])) 0
      = some (['a', 'g', 'e', 'n', 't', '_', '1'],
              ⟨[], [], ['J', 'P'], [], [], [], [], [], [], [], [], []⟩) :=
  ((c9_country_selector exAgents [['J', 'P']] 0 (by decide)).1).trans (by decide)

/-! ### The hub's per-connection pipeline

`handle_socks5_connection` (`cserver/src/socks5.rs:379-540`) is modelled
as a function from the connection's external inputs (handshake result,
token-store lookup, clock, points lookup, CONNECT request parse, registry
snapshot, random draw, CONNECT-ack outcome) to the ordered list of phases
it passes through.  Each event is placed exactly where the corresponding
call or reply happens in the code. -/

/-- A token-store record (`get_token` result: owner and expiry). -/
structure TokenRec where
  user_id : Nat
  expires_at : Int
deriving DecidableEq

/-- Observable phases of one SOCKS5 connection on the hub. -/
inductive HubEvent where
  | handshakeOk
  | tokenLookup
  | pointsCheck
  | readConnectRequest
  | selectAgent
  | sendConnectRequest
  | replyFailure
  | replySuccess
  | relay
deriving DecidableEq

/-- External inputs of one hub SOCKS5 connection. -/
structure ConnInput where
  handshake : Option (Str × Str)
  token_rec : Option TokenRec
  now : Int
  user_points : Option Int
  connect_req : Option (Nat × Str × Nat)
  agents : AgentMap
  draw : Nat
  wait : WaitOutcome
deriving DecidableEq

/-- The phase trace of `handle_socks5_connection`
(`cserver/src/socks5.rs:379-540`): handshake; `get_token` and the expiry
check; `get_user_points` and the ≥ 10 check; `read_socks5_connect_request`;
`choose_agent`; `send_connect_request_and_wait_for_response`; then the
client reply and, on success, the relay loop.  Every early exit replies
general failure except a handshake or request-parse error, which just
closes the socket. -/
def hubTrace (inp : ConnInput) : List HubEvent :=
  match inp.handshake with
  | none => []
  | some (username, _token) =>
      HubEvent.handshakeOk :: HubEvent.tokenLookup ::
      match inp.token_rec with
      | none => [HubEvent.replyFailure]
      | some rec =>
          if rec.expires_at > inp.now then
            HubEvent.pointsCheck ::
            match inp.user_points with
            | none => [HubEvent.replyFailure]
            | some pts =>
                if pts ≥ 10 then
                  HubEvent.readConnectRequest ::
                  match inp.connect_req with
                  | none => []
                  | some _ =>
                      HubEvent.selectAgent ::
                      match choose_agent inp.agents (some username) inp.draw with
                      | none => [HubEvent.replyFailure]
                      | some _ =>
                          HubEvent.sendConnectRequest ::
                          match inp.wait with
                          | WaitOutcome.sendFailed => [HubEvent.replyFailure]
                          | WaitOutcome.timeout => [HubEvent.replyFailure]
                          | WaitOutcome.response false => [HubEvent.replyFailure]
                          | WaitOutcome.response true =>
                              [HubEvent.replySuccess, HubEvent.relay]
                else [HubEvent.replyFailure]
          else [HubEvent.replyFailure]

/-- The tail of `handle_socks5_connection`
(`cserver/src/socks5.rs:526-539`): after the relay loop returns, an error
result only logs; an ok result writes the user's balance minus 10 back.
Returns the points value written, or `none` when no update is issued. -/
def pointsAfterRelay (transfer : Except Str Unit) (pts : Int) : Option Int :=
  match transfer with
  | Except.error _ => none
  | Except.ok _ => some (pts - 10)

/-- C4: for a session that reaches the relay loop, the hub updates the
user's balance to `points - 10` exactly when the relay future resolves
without error, and issues no update when it resolves with an error. -/
theorem c4_points_deduction (pts : Int) (e : Str) (r : Except Str Unit) :
    pointsAfterRelay (Except.ok ()) pts = some (pts - 10) ∧
    pointsAfterRelay (Except.error e) pts = none ∧
    ((pointsAfterRelay r pts).isSome ↔ r = Except.ok ()) := by
  refine ⟨rfl, rfl, ?_⟩
  cases r with
  | ok u => cases u; simp [pointsAfterRelay]
  | error msg => simp [pointsAfterRelay]

/-- Concrete input whose connection passes every phase. -/
def exConnInput : ConnInput :=
  { handshake := some (all_tag, ['t', 'o', 'k'])
    token_rec := some ⟨1, 100⟩
    now := 0
    user_points := some 50
    connect_req := some (1, ['8', '.', '8', '.', '8', '.', '8'], 80)
    agents := exAgents
    draw := 0
    wait := WaitOutcome.response true }

/-- Counterexample for C6: on a connection that reaches the CONNECT
request, the trace does not pass through `readConnectRequest` before
`tokenLookup`; the token lookup (and the points check) come first. -/
theorem c6_order_counterexample :
    HubEvent.readConnectRequest ∈ hubTrace exConnInput ∧
    HubEvent.tokenLookup ∈ hubTrace exConnInput ∧
    ¬ [HubEvent.readConnectRequest, HubEvent.tokenLookup].Sublist (hubTrace exConnInput) := by
  decide

/-- C6 (amended): in every hub connection whose trace reads the SOCKS5
CONNECT request at all, the bearer-token lookup and the points check occur
before the CONNECT request is read and parsed: the state machine passes
through VALIDATE and only then REQUEST. -/
theorem c6_order_amended (inp : ConnInput) :
    HubEvent.readConnectRequest ∈ hubTrace inp →
    [HubEvent.tokenLookup, HubEvent.pointsCheck, HubEvent.readConnectRequest].Sublist
      (hubTrace inp) := by
  intro hmem
  unfold hubTrace at hmem ⊢
  match hh : inp.handshake with
  | none => simp [hh] at hmem
  | some (username, token) =>
      simp only [hh] at hmem ⊢
      match ht : inp.token_rec with
      | none => simp [ht] at hmem
      | some rec =>
          simp only [ht] at hmem ⊢
          by_cases hexp : rec.expires_at > inp.now
          · simp only [hexp, if_true, ite_true] at hmem ⊢
            match hp : inp.user_points with
            | none => simp [hp] at hmem
            | some pts =>
                simp only [hp] at hmem ⊢
                by_cases hpts : pts ≥ 10
                · simp only [hpts, if_true, ite_true]
                  refine List.Sublist.cons _ ?_
                  refine List.Sublist.cons₂ _ ?_
                  refine List.Sublist.cons₂ _ ?_
                  refine List.Sublist.cons₂ _ ?_
                  exact List.nil_sublist _
                · simp [hpts] at hmem
          · simp [hexp] at hmem

/-- Witness for C6 (amended) at the all-phases concrete input. -/
theorem c6_order_witness :
    [HubEvent.tokenLookup, HubEvent.pointsCheck, HubEvent.readConnectRequest].Sublist
      (hubTrace exConnInput) :=
  c6_order_amended exConnInput (by decide)

/-! ### Request lifecycle across both tables

Combined view of the hub's pending table and the agent's TCP connection
table for one request.  Each transition below embeds one code site; a
scenario composes the transitions in the order the corresponding
termination path executes them. -/

/-- The hub's pending table together with the agent's TCP connection
table (its key set; the socket byte logs are irrelevant here). -/
structure SysState where
  pending : PendingMap
  conns : List Str
deriving DecidableEq

/-- `send_connect_request_and_wait_for_response` registers the one-shot
slot (`cserver/src/socks5.rs:181-186`). -/
def hub_insert_oneshot (rid : Str) (st : SysState) : SysState :=
  { st with pending := pmInsert st.pending rid PendingSender.oneshot }

/-- `handle_socks5_data_transfer` registers the mpsc slot on entering the
relay loop (`cserver/src/socks5.rs:237-242`). -/
def hub_start_relay (rid : Str) (st : SysState) : SysState :=
  { st with pending := pmInsert st.pending rid PendingSender.mpsc }

/-- `handle_socks5_data_transfer` removes the slot after both relay halves
finish (`cserver/src/socks5.rs:366-369`). -/
def hub_relay_finished (rid : Str) (st : SysState) : SysState :=
  { st with pending := pmRemove st.pending rid }

/-- The CONNECT-ack timeout removes the slot
(`cserver/src/socks5.rs:213-217`). -/
def hub_connect_timeout (rid : Str) (st : SysState) : SysState :=
  { st with pending := pmRemove st.pending rid }

/-- The WebSocket reader routes an incoming `ConnectResponse`
(`cserver/src/websocket.rs:73-95`). -/
def hub_deliver_connect_response (rid : Str) (st : SysState) : SysState :=
  { st with pending := (handle_connect_response st.pending rid).1 }

/-- The agent inserts the upstream write half after a successful connect
(`agent/src/tcp.rs:242-246`). -/
def agent_connect_established (rid : Str) (st : SysState) : SysState :=
  { st with conns := rid :: st.conns }

/-- The agent removes the entry on `DataRequestTransferComplete` or
`ClientDisconnect` (`agent/src/ws.rs:97` and `agent/src/ws.rs:127`). -/
def agent_drop_conn (rid : Str) (st : SysState) : SysState :=
  { st with conns := st.conns.filter (fun r => r ≠ rid) }

/-- Termination through the relay loop (upstream EOF success, upstream
read error, or client disconnect): the CONNECT ack arrives and is
delivered, the relay registers its mpsc slot, the hub's client half ends
and sends `ClientDisconnect` (the agent drops its entry), and the relay
teardown removes the pending slot. -/
def scenario_relay_completed (rid : Str) (st : SysState) : SysState :=
  hub_relay_finished rid
    (agent_drop_conn rid
      (hub_start_relay rid
        (hub_deliver_connect_response rid
          (agent_connect_established rid
            (hub_insert_oneshot rid st)))))

/-- Termination by a failed CONNECT: the agent opens no upstream socket
and answers `success: false`; the delivery consumes the one-shot slot and
the hub replies failure. -/
def scenario_connect_failed (rid : Str) (st : SysState) : SysState :=
  hub_deliver_connect_response rid (hub_insert_oneshot rid st)

/-- Termination by CONNECT-ack timeout after the agent did open the
upstream socket: the timeout removes the pending slot, and the agent's
late `ConnectResponse` is dropped by the router. -/
def scenario_connect_timeout (rid : Str) (st : SysState) : SysState :=
  hub_deliver_connect_response rid
    (hub_connect_timeout rid
      (agent_connect_established rid
        (hub_insert_oneshot rid st)))

/-- Termination by a failed WebSocket send of the `ConnectRequest`: the
`?` at `cserver/src/socks5.rs:200` returns the error before the wait, the
caller replies failure, and nothing removes the one-shot slot inserted at
`cserver/src/socks5.rs:185`. -/
def scenario_send_failed (rid : Str) (st : SysState) : SysState :=
  { st with
      pending := (send_connect_request_and_wait st.pending rid WaitOutcome.sendFailed).1 }

/-- Counterexample for C3: when the CONNECT ack times out after the agent
opened the upstream connection, the request has terminated (its pending
slot is gone and the hub replied failure), yet the agent's TCP connection
table still contains the request identifier. -/
theorem c3_tables_counterexample :
    (scenario_connect_timeout ['r'] ⟨[], []⟩).conns = [['r']] ∧
    pmLookup (scenario_connect_timeout ['r'] ⟨[], []⟩).pending ['r'] = none := by
  decide

/-- C3 (amended): after a relay-phase termination (success, upstream
failure, or client disconnect) neither table retains the request
identifier, and the hub's pending table is also clear of it after a
delivered CONNECT failure and after a CONNECT-ack timeout; but the claim
fails on two paths: after a CONNECT-ack timeout the agent's TCP connection
table retains the identifier until a later
`DataRequestTransferComplete`/`ClientDisconnect` or WebSocket teardown,
and when the WebSocket send of the `ConnectRequest` itself fails, the
hub's pending one-shot slot is never removed. -/
theorem c3_tables_amended (rid : Str) (st : SysState) :
    pmLookup (scenario_relay_completed rid st).pending rid = none ∧
    rid ∉ (scenario_relay_completed rid st).conns ∧
    pmLookup (scenario_connect_failed rid st).pending rid = none ∧
    (rid ∉ st.conns → rid ∉ (scenario_connect_failed rid st).conns) ∧
    pmLookup (scenario_connect_timeout rid st).pending rid = none ∧
    rid ∈ (scenario_connect_timeout rid st).conns ∧
    pmLookup (scenario_send_failed rid st).pending rid = some PendingSender.oneshot := by
  have hins : pmLookup (pmInsert st.pending rid PendingSender.oneshot) rid
      = some PendingSender.oneshot := pmLookup_pmInsert_self st.pending rid _
  have hdel : handle_connect_response (pmInsert st.pending rid PendingSender.oneshot) rid
      = (pmRemove (pmInsert st.pending rid PendingSender.oneshot) rid, true) := by
    simp [handle_connect_response, hins]
  have hrm : pmLookup (pmRemove (pmInsert st.pending rid PendingSender.oneshot) rid) rid
      = none := pmLookup_pmRemove_self _ rid
  refine ⟨?_, ?_, ?_, ?_, ?_, ?_, ?_⟩
  · simp [scenario_relay_completed, hub_relay_finished, agent_drop_conn, hub_start_relay,
      hub_deliver_connect_response, agent_connect_established, hub_insert_oneshot,
      pmLookup_pmRemove_self]
  · simp [scenario_relay_completed, hub_relay_finished, agent_drop_conn, hub_start_relay,
      hub_deliver_connect_response, agent_connect_established, hub_insert_oneshot,
      List.mem_filter]
  · simp only [scenario_connect_failed, hub_deliver_connect_response, hub_insert_oneshot,
      hdel]
    exact hrm
  · intro h
    simpa [scenario_connect_failed, hub_deliver_connect_response, hub_insert_oneshot] using h
  · have hlate : pmLookup (pmRemove (pmInsert st.pending rid PendingSender.oneshot) rid) rid
        = none := hrm
    simp only [scenario_connect_timeout, hub_deliver_connect_response, hub_connect_timeout,
      agent_connect_established, hub_insert_oneshot, handle_connect_response, hlate]
  · simp [scenario_connect_timeout, hub_deliver_connect_response, hub_connect_timeout,
      agent_connect_established, hub_insert_oneshot]
  · simp [scenario_send_failed, send_connect_request_and_wait, pmLookup_pmInsert_self]

/-- Witness for C3 (amended) at a concrete fresh request and empty
tables. -/
theorem c3_tables_amended_witness :
    pmLookup (scenario_relay_completed ['r'] ⟨[], []⟩).pending ['r'] = none ∧
    (['r'] : Str) ∉ (scenario_connect_failed ['r'] ⟨[], []⟩).conns :=
  ⟨(c3_tables_amended ['r'] ⟨[], []⟩).1,
   (c3_tables_amended ['r'] ⟨[], []⟩).2.2.2.1 (by decide)⟩

end Chilsonite
